import Mathlib

/-!
# Case-Manager calendar engine: shallow embedding and verification

This file embeds the calendar-scheduling logic of the Case-Manager
repository in Lean 4 and proves (or refutes) the frozen claims about it.

The embedded code:
* `generateTimeSlots` of the appointment scheduler and of the add-event
  modal (time-slot generation for a selected day),
* `updateSelectedDateEvents` together with the appointment-listener
  pre-filter (the per-day agenda), including the JS `Array.prototype.sort`
  comparator,
* `validateInputs` (appointment form) and `validateForm` (event form),
* `updateMarkedDates` (month-view multi-dot markers), and
* the manual `"YYYY-MM-DD"` date formatting used on submission.

Conventions of the embedding:
* JS `Date` values that are used only for their calendar components are
  embedded as `CalendarDate` (year/month/day as naturals); a full clock
  instant is a `CalendarDate` plus hour/minute.  `date-fns`' `isToday d`
  is `d = now.date` and `isBefore` on two instants is lexicographic
  comparison, which is exact for the component ranges produced by the app.
* JS strings are Lean `String`s; `localeCompare` on zero-padded `"HH:mm"`
  strings is embedded as lexicographic comparison of the code points
  (`charListLt` below), which is what every locale does on ASCII digits.
* `Array.prototype.sort` (required to be stable by ECMAScript) is embedded
  as a stable insertion sort `stableSort`; for the total preorder induced
  by the agenda comparator any stable sort yields the same list.
* JS objects used as maps (`marked[date]`) are association lists keyed by
  the date string, with insertion-order append for new keys and in-place
  update for existing keys, mirroring JS property order.
-/

/-! ## Definitions -/

/-- A calendar date, the canonical `(year, month, day)` triple the app
persists as `"YYYY-MM-DD"`. -/
structure CalendarDate where
  year : Nat
  month : Nat
  day : Nat
deriving DecidableEq, Repr

/-- Strict calendar order, lexicographic on (year, month, day). -/
def CalendarDate.before (a b : CalendarDate) : Prop :=
  a.year < b.year ∨ (a.year = b.year ∧
    (a.month < b.month ∨ (a.month = b.month ∧ a.day < b.day)))

instance (a b : CalendarDate) : Decidable (a.before b) := by
  unfold CalendarDate.before; infer_instance

/-- A wall-clock instant: the value of `new Date()` restricted to the
components the embedded code reads (`getFullYear/getMonth/getDate` via
`isToday`, and `getHours`/`getMinutes`). -/
structure Instant where
  date : CalendarDate
  hour : Nat
  minute : Nat
deriving DecidableEq, Repr

/-- One generated time slot.  The JS code pushes a `Date` on the selected
day with `setHours(hour, minute, 0, 0)`; only the time of day varies. -/
structure Slot where
  hour : Nat
  minute : Nat
deriving DecidableEq, Repr

/-- Strict chronological order on slots (lexicographic hour, minute). -/
def Slot.before (a b : Slot) : Prop :=
  a.hour < b.hour ∨ (a.hour = b.hour ∧ a.minute < b.minute)

instance (a b : Slot) : Decidable (a.before b) := by
  unfold Slot.before; infer_instance

/-- The `startHour` computed by both `generateTimeSlots` copies:
`startHour = 9`; if the selected date is today and `now.getHours() >= 9`
then `startHour = now.getHours()`, plus one more if `now.getMinutes() >= 30`. -/
def slotStartHour (sameDay : Bool) (nowHour nowMinute : Nat) : Nat :=
  if sameDay then
    (if 9 ≤ nowHour then (if 30 ≤ nowMinute then nowHour + 1 else nowHour) else 9)
  else 9

/-- `generateTimeSlots` of `AppointmentScheduler` (part_000 lines 541-581):
hours run from `startHour` while `< 17`, minutes over `[0, 30]`, and a
slot is skipped when the selected date is today and
`(hour === startHour && minute < now.getMinutes() && now.getMinutes() > 30)
 || hour < now.getHours()`. -/
def generateTimeSlotsScheduler (selectedDate : CalendarDate) (now : Instant) : List Slot :=
  let sameDay := decide (selectedDate = now.date)
  let startHour := slotStartHour sameDay now.hour now.minute
  (List.range' startHour (17 - startHour)).flatMap fun hour =>
    ([0, 30].filter fun minute =>
      !(sameDay && ((decide (hour = startHour) && decide (minute < now.minute)
          && decide (30 < now.minute)) || decide (hour < now.hour)))).map
      fun minute => { hour := hour, minute := minute }

/-- `generateTimeSlots` of `AddEventModal` (part_000 lines 1694-1731):
identical to the scheduler copy except that the skip condition lacks the
`|| hour < now.getHours()` disjunct. -/
def generateTimeSlotsModal (selectedDate : CalendarDate) (now : Instant) : List Slot :=
  let sameDay := decide (selectedDate = now.date)
  let startHour := slotStartHour sameDay now.hour now.minute
  (List.range' startHour (17 - startHour)).flatMap fun hour =>
    ([0, 30].filter fun minute =>
      !(sameDay && (decide (hour = startHour) && decide (minute < now.minute)
          && decide (30 < now.minute)))).map
      fun minute => { hour := hour, minute := minute }

/-- The 16 slots of a full working day, 09:00 to 16:30 in 30-minute steps. -/
def fullDaySlots : List Slot :=
  [⟨9, 0⟩, ⟨9, 30⟩, ⟨10, 0⟩, ⟨10, 30⟩, ⟨11, 0⟩, ⟨11, 30⟩, ⟨12, 0⟩, ⟨12, 30⟩,
   ⟨13, 0⟩, ⟨13, 30⟩, ⟨14, 0⟩, ⟨14, 30⟩, ⟨15, 0⟩, ⟨15, 30⟩, ⟨16, 0⟩, ⟨16, 30⟩]

/-- Lexicographic code-point order on character lists: the embedding of
the ordering `String.prototype.localeCompare` yields on the zero-padded
ASCII `"HH:mm"` strings the agenda comparator receives. -/
def charListLt : List Char → List Char → Bool
  | [], [] => false
  | [], _ :: _ => true
  | _ :: _, [] => false
  | c :: cs, d :: ds =>
    if c.toNat < d.toNat then true
    else if d.toNat < c.toNat then false
    else charListLt cs ds

/-- String order by code points (see `charListLt`). -/
def strLt (s t : String) : Bool := charListLt s.data t.data

/-- Stable insertion: `x` goes in front of the first element `y` with
`le x y`, so an element inserted from earlier in the stream precedes the
elements it ties with. -/
def insertStable {α : Type} (le : α → α → Bool) (x : α) : List α → List α
  | [] => [x]
  | y :: ys => if le x y then x :: y :: ys else y :: insertStable le x ys

/-- Stable sort by `le`.  ECMAScript requires `Array.prototype.sort` to
be stable; for a total preorder every stable sort computes this list, so
this embeds the JS sort together with its comparator. -/
def stableSort {α : Type} (le : α → α → Bool) : List α → List α
  | [] => []
  | x :: xs => insertStable le x (stableSort le xs)

/-- The fields of a calendar `Event` (interface in AddEventModal, used by
more.tsx) that the agenda and marker code reads.  `time` is `null` for
all-day events. -/
structure CalEvent where
  id : String
  title : String
  date : String
  time : Option String
  location : String
  isAllDay : Bool
  isRecurring : Bool
  recurrencePattern : Option String
  recurrenceEnd : Option String
  category : String
  color : Option String
  status : String
deriving DecidableEq, Repr

/-- The fields of an `Appointment` (interface in more.tsx /
AppointmentScheduler) that the agenda and marker code reads. -/
structure Appointment where
  id : String
  doctorName : String
  specialty : String
  date : String
  time : String
  location : String
  status : String
  isRecurring : Bool
  recurrencePattern : Option String
  recurrenceEnd : Option String
  color : Option String
deriving DecidableEq, Repr

/-- An element of the combined per-day list built by
`updateSelectedDateEvents`: an Event spread as-is, or an Appointment with
the overrides of more.tsx lines 138-145. -/
structure AgendaItem where
  id : String
  title : String
  date : String
  time : Option String
  location : String
  isAllDay : Bool
  category : String
  isAppointment : Bool
deriving DecidableEq, Repr

/-- An Event enters the combined list unchanged (it is spread); Events
have no `isAppointment` property, which reads as falsy. -/
def eventToItem (e : CalEvent) : AgendaItem :=
  { id := e.id, title := e.title, date := e.date, time := e.time,
    location := e.location, isAllDay := e.isAllDay, category := e.category,
    isAppointment := false }

/-- An Appointment enters the combined list with title
`"Dr. <name> (<specialty>)"`, category `"appointment"` and
`isAppointment: true` (more.tsx lines 138-145); Appointments have no
`isAllDay` property, which reads as falsy. -/
def aptToItem (a : Appointment) : AgendaItem :=
  { id := a.id, title := "Dr. " ++ a.doctorName ++ " (" ++ a.specialty ++ ")",
    date := a.date, time := some a.time, location := a.location,
    isAllDay := false, category := "appointment", isAppointment := true }

/-- The sort comparator of more.tsx lines 146-151:
`if (a.isAllDay) return -1; if (b.isAllDay) return 1;
return a.time.localeCompare(b.time);`.  The time strings are only read
when neither entry is all-day, in which case they are present; `getD ""`
is the total-function rendering of that access. -/
def agendaCmp (a b : AgendaItem) : Int :=
  if a.isAllDay then -1
  else if b.isAllDay then 1
  else if strLt (a.time.getD "") (b.time.getD "") then -1
  else if strLt (b.time.getD "") (a.time.getD "") then 1
  else 0

/-- The "comparator says a may come before b" relation the stable sort
runs on. -/
def agendaLe (a b : AgendaItem) : Bool := decide (agendaCmp a b ≤ 0)

/-- Two agenda entries the comparator ties (both may come first). -/
def tiedAgenda (a b : AgendaItem) : Bool := agendaLe a b && agendaLe b a

/-- `updateSelectedDateEvents` (more.tsx lines 122-155): filter both
streams to entries whose stored date string equals the selected date,
concatenate (Events first), and sort with the comparator. -/
def updateSelectedDateEvents (events : List CalEvent) (appointments : List Appointment)
    (date : String) : List AgendaItem :=
  let dateEvents := events.filter fun e => e.date == date
  let dateAppointments := appointments.filter fun a => a.date == date
  stableSort agendaLe (dateEvents.map eventToItem ++ dateAppointments.map aptToItem)

/-- The appointment-listener pre-filter (more.tsx lines 170-175): only
appointments whose status is not "cancelled" reach the screen state. -/
def activeAppointments (l : List Appointment) : List Appointment :=
  l.filter fun a => a.status != "cancelled"

/-- The per-day agenda as the screen computes it: the raw appointment
snapshot is pre-filtered by the listener, the event snapshot is not. -/
def agendaForDate (events : List CalEvent) (appointments : List Appointment)
    (date : String) : List AgendaItem :=
  updateSelectedDateEvents events (activeAppointments appointments) date

/-- Example: a weekly-recurring event anchored on 2024-01-01. -/
def exampleWeeklyEvent : CalEvent :=
  { id := "ev-weekly", title := "Physio", date := "2024-01-01",
    time := some "10:00", location := "Clinic", isAllDay := false,
    isRecurring := true, recurrencePattern := some "weekly",
    recurrenceEnd := none, category := "health", color := none,
    status := "upcoming" }

/-- Example: a cancelled event on 2024-03-03. -/
def exampleCancelledEvent : CalEvent :=
  { id := "ev-cancelled", title := "Lunch", date := "2024-03-03",
    time := some "12:00", location := "Cafe", isAllDay := false,
    isRecurring := false, recurrencePattern := none,
    recurrenceEnd := none, category := "personal", color := none,
    status := "cancelled" }

/-- Example: an all-day event on 2024-06-01. -/
def exampleAllDayEvent : CalEvent :=
  { id := "ev-allday", title := "Family day", date := "2024-06-01",
    time := none, location := "", isAllDay := true, isRecurring := false,
    recurrencePattern := none, recurrenceEnd := none,
    category := "personal", color := none, status := "upcoming" }

/-- Example: a 09:00 appointment on 2024-06-01. -/
def exampleMorningAppointment : Appointment :=
  { id := "ap-0900", doctorName := "Smith", specialty := "Cardiology",
    date := "2024-06-01", time := "09:00", location := "Clinic",
    status := "upcoming", isRecurring := false, recurrencePattern := none,
    recurrenceEnd := none, color := none }

/-- A time of day as read off a JS `Date` via `getHours`/`getMinutes`. -/
structure TimeOfDay where
  hour : Nat
  minute : Nat
deriving DecidableEq, Repr

/-- `isBefore` on the instant combining calendar date `d` with time `t`
against `now`: lexicographic on (date, hour, minute). -/
def instantBefore (d : CalendarDate) (t : TimeOfDay) (now : Instant) : Prop :=
  d.before now.date ∨ (d = now.date ∧
    (t.hour < now.hour ∨ (t.hour = now.hour ∧ t.minute < now.minute)))

instance (d : CalendarDate) (t : TimeOfDay) (now : Instant) :
    Decidable (instantBefore d t now) := by
  unfold instantBefore; infer_instance

/-- The embedding of `String.prototype.trim`: strip leading and trailing
whitespace (the ASCII whitespace classes occurring in app input). -/
def isWhitespaceChar (c : Char) : Bool :=
  c = ' ' || c = '\t' || c = '\n' || c = '\r'

/-- See `isWhitespaceChar`. -/
def jsTrim (s : String) : String :=
  String.mk (((s.data.dropWhile isWhitespaceChar).reverse.dropWhile
    isWhitespaceChar).reverse)

/-- The `AppointmentScheduler` form state read by `validateInputs`
(part_000 lines 200-263).  `date`/`time` are `none` when the JS state is
null; picked JS `Date`s are embedded by the components the validator
compares (`isBefore(date, startOfDay(now)) && !isToday(date)` reduces to
the calendar comparison used here, since a date on today's day is never
before `startOfDay(now)`). -/
structure SchedulerForm where
  doctorName : String
  specialty : String
  location : String
  date : Option CalendarDate
  time : Option TimeOfDay
  selectedTimeSlot : Bool
  showManualTimeInput : Bool
  duration : Nat
  isRecurring : Bool
  recurrencePattern : Option String
  recurrenceEnd : Option CalendarDate
deriving DecidableEq, Repr

/-- The error record built by `validateInputs` (a field is `some msg`
exactly when the JS object gets that key). -/
structure SchedulerErrors where
  doctorName : Option String
  specialty : Option String
  location : Option String
  date : Option String
  time : Option String
  recurrence : Option String
  duration : Option String
deriving DecidableEq, Repr

/-- `validateInputs` of `AppointmentScheduler` (part_000 lines 200-263).
The two sequential recurrence `if`s write the same key for disjoint
pattern states, rendered as one chain here.  A null date makes the
combined-datetime branch compare `isToday` on an invalid/epoch date,
which is falsy, hence `none` in that case. -/
def validateInputs (f : SchedulerForm) (now : Instant) : SchedulerErrors :=
  { doctorName := if jsTrim f.doctorName = "" then some "Doctor name is required" else none,
    specialty := if jsTrim f.specialty = "" then some "Specialty is required" else none,
    location := if jsTrim f.location = "" then some "Location is required" else none,
    date :=
      match f.date with
      | none => some "Date is required"
      | some d =>
        if d.before now.date ∧ d ≠ now.date then some "Date cannot be in the past"
        else none,
    time :=
      match f.time with
      | none => some "Time is required"
      | some t =>
        if !f.selectedTimeSlot && !f.showManualTimeInput then
          some "Please select a time slot"
        else
          match f.date with
          | some d =>
            if d = now.date ∧ instantBefore d t now then
              some "Time cannot be in the past"
            else none
          | none => none,
    recurrence :=
      if f.isRecurring && f.recurrencePattern.isNone then
        some "Please select a recurrence pattern"
      else if f.isRecurring && f.recurrencePattern.isSome then
        match f.recurrenceEnd, f.date with
        | some e, some d =>
          if e.before d then some "Recurrence end date must be after appointment date"
          else none
        | _, _ => none
      else none,
    duration :=
      if f.duration = 0 then some "Duration is required"
      else if f.duration < 15 then some "Duration must be at least 15 minutes"
      else if 240 < f.duration then some "Duration cannot exceed 4 hours"
      else none }

/-- The `AddEventModal` form state read by `validateForm`. -/
structure EventForm where
  title : String
  location : String
  date : Option CalendarDate
  time : Option TimeOfDay
  isAllDay : Bool
  isRecurring : Bool
  recurrencePattern : Option String
deriving DecidableEq, Repr

/-- The error record built by `validateForm`. -/
structure EventErrors where
  title : Option String
  location : Option String
  date : Option String
  time : Option String
  recurrence : Option String
deriving DecidableEq, Repr

/-- `validateForm` of `AddEventModal` (part_000 lines 1779-1810).  Time
validation, reached only when the event is not all-day, checks presence
and JS validity of the time only — it never compares the combined
(date, time) against the current instant. -/
def validateForm (f : EventForm) (now : Instant) : EventErrors :=
  { title := if jsTrim f.title = "" then some "Event title is required" else none,
    location := if jsTrim f.location = "" then some "Location is required" else none,
    date :=
      match f.date with
      | none => some "Date is required"
      | some d =>
        if d.before now.date ∧ d ≠ now.date then some "Date cannot be in the past"
        else none,
    time :=
      if f.isAllDay then none
      else
        match f.time with
        | none => some "Time is required"
        | some _ => none,
    recurrence :=
      if f.isRecurring && f.recurrencePattern.isNone then
        some "Please select a recurrence pattern"
      else none }

/-- Example: a fully-filled event form dated today with a time (09:00)
earlier than the current instant (14:00). -/
def examplePastTimeEventForm : EventForm :=
  { title := "Checkup", location := "Clinic", date := some ⟨2024, 6, 1⟩,
    time := some ⟨9, 0⟩, isAllDay := false, isRecurring := false,
    recurrencePattern := none }

/-- Example: the analogous appointment form (slot selected). -/
def examplePastTimeSchedulerForm : SchedulerForm :=
  { doctorName := "Smith", specialty := "Cardiology", location := "Clinic",
    date := some ⟨2024, 6, 1⟩, time := some ⟨9, 0⟩, selectedTimeSlot := true,
    showManualTimeInput := false, duration := 30, isRecurring := false,
    recurrencePattern := none, recurrenceEnd := none }

/-- A marker dot, `{ key: <entity id>, color }` in the multi-dot marking
object. -/
structure Dot where
  key : String
  color : String
deriving DecidableEq, Repr

/-- One value of the `marked` object: the accumulated dots and whether
the entry carries `selected: true` (pure styling fields such as
`selectedColor`/`selectedTextColor` are presentation data, not
modelled). -/
structure MarkInfo where
  dots : List Dot
  selected : Bool
deriving DecidableEq, Repr

/-- Modelled from the spec: the repository's `constants/Colors.ts` module
is not among the provided sources; the spec only ever refers to entity
colors abstractly, so each constant is an opaque distinct token. -/
def colorsLightPrimary : String := "Colors.light.primary"

/-- Modelled from the spec: see `colorsLightPrimary`. -/
def colorsLightWellness : String := "Colors.light.wellness"

/-- Modelled from the spec: see `colorsLightPrimary`. -/
def colorsLightAppointment : String := "Colors.light.appointment"

/-- The `EVENT_COLORS` table of more.tsx lines 43-50; an unknown key
reads as `undefined`. -/
def EVENT_COLORS (category : String) : Option String :=
  if category = "personal" then some colorsLightPrimary
  else if category = "work" then some "#FF9500"
  else if category = "family" then some "#FF3B30"
  else if category = "health" then some colorsLightWellness
  else if category = "other" then some "#8E8E93"
  else if category = "appointment" then some colorsLightAppointment
  else none

/-- JS `a || b` where `a` is a possibly-missing, possibly-empty string:
falsy (`undefined`/`null`/`""`) falls through to `b`. -/
def jsOrElse (a : Option String) (b : String) : String :=
  match a with
  | some s => if s = "" then b else s
  | none => b

/-- The color of an event's marker dot (more.tsx line 221):
`event.color || EVENT_COLORS[event.category || 'other'] ||
Colors.light.primary`. -/
def eventMarkerColor (e : CalEvent) : String :=
  jsOrElse e.color
    (jsOrElse (EVENT_COLORS (if e.category = "" then "other" else e.category))
      colorsLightPrimary)

/-- The regular-expression test of `formatDateString`: exactly
four digits, dash, two digits, dash, two digits. -/
def isYYYYMMDD (s : String) : Bool :=
  match s.data with
  | [y1, y2, y3, y4, h1, m1, m2, h2, d1, d2] =>
    y1.isDigit && y2.isDigit && y3.isDigit && y4.isDigit && h1 == '-' &&
      m1.isDigit && m2.isDigit && h2 == '-' && d1.isDigit && d2.isDigit
  | _ => false

/-- Modelled from the spec: the non-matching branch of `formatDateString`
re-parses through the host `new Date` parser, a path §4.1 of the spec
rules out, and its `catch` branch returns the input unchanged; that
rendering is used for this never-exercised-below case. -/
def reparseFallback (s : String) : String := s

/-- `formatDateString` of `updateMarkedDates` (more.tsx lines 201-215): a
string already in `YYYY-MM-DD` form is returned as is. -/
def formatDateString (s : String) : String :=
  if isYYYYMMDD s then s else reparseFallback s

/-- Property lookup on the `marked` object. -/
def lookupMark : List (String × MarkInfo) → String → Option MarkInfo
  | [], _ => none
  | (k, v) :: rest, d => if k = d then some v else lookupMark rest d

/-- `marked[date].dots.push({key, color})`, or first-dot creation when
the key is absent (new JS properties append in insertion order). -/
def addDot : List (String × MarkInfo) → String → Dot → List (String × MarkInfo)
  | [], d, dot => [(d, { dots := [dot], selected := false })]
  | (k, v) :: rest, d, dot =>
    if k = d then (k, { v with dots := v.dots ++ [dot] }) :: rest
    else (k, v) :: addDot rest d dot

/-- The in-place `marked[selected] = { ...marked[selected], selected:
true }` update: the entry with the selected key gets its flag turned on,
everything else is untouched (keys are unique by construction). -/
def setSelectedFlag : List (String × MarkInfo) → String → List (String × MarkInfo)
  | [], _ => []
  | (k, v) :: rest, sel =>
    if k = sel then (k, { v with selected := true }) :: setSelectedFlag rest sel
    else (k, v) :: setSelectedFlag rest sel

/-- The final selected-date step of `updateMarkedDates` (more.tsx lines
263-278): spread-update the existing entry with `selected: true`, or
create a fresh entry with an empty `dots` array. -/
def markSelected (m : List (String × MarkInfo)) (selected : String) :
    List (String × MarkInfo) :=
  match lookupMark m selected with
  | some _ => setSelectedFlag m selected
  | none => m ++ [(selected, { dots := [], selected := true })]

/-- `updateMarkedDates` (more.tsx lines 199-281): one dot per
non-cancelled event in the event's computed color, then one dot per
appointment in the fixed appointment color, then the selected-date
step. -/
def updateMarkedDates (eventsList : List CalEvent)
    (appointmentsList : List Appointment) (selected : String) :
    List (String × MarkInfo) :=
  let m1 := eventsList.foldl (fun m e =>
    if e.status != "cancelled" then
      addDot m (formatDateString e.date) { key := e.id, color := eventMarkerColor e }
    else m) []
  let m2 := appointmentsList.foldl (fun m a =>
    addDot m (formatDateString a.date)
      { key := a.id, color := colorsLightAppointment }) m1
  markSelected m2 selected

/-- The marker map as the screen maintains it: the appointment snapshot
is pre-filtered to non-cancelled entries by the listener callback before
`updateMarkedDates` runs. -/
def markedDatesPipeline (events : List CalEvent)
    (appointments : List Appointment) (selected : String) :
    List (String × MarkInfo) :=
  updateMarkedDates events (activeAppointments appointments) selected

/-- The dots recorded for a date (an absent key shows no dots). -/
def dotsFor (m : List (String × MarkInfo)) (d : String) : List Dot :=
  match lookupMark m d with
  | some info => info.dots
  | none => []

/-- Example: an upcoming appointment with its own color `#111111`. -/
def exampleColoredAppointmentA : Appointment :=
  { id := "apA", doctorName := "Jones", specialty := "Dermatology",
    date := "2024-06-05", time := "10:00", location := "Clinic",
    status := "upcoming", isRecurring := false, recurrencePattern := none,
    recurrenceEnd := none, color := some "#111111" }

/-- Example: an upcoming appointment with its own color `#222222`. -/
def exampleColoredAppointmentB : Appointment :=
  { id := "apB", doctorName := "Lee", specialty := "Neurology",
    date := "2024-06-05", time := "11:00", location := "Clinic",
    status := "upcoming", isRecurring := false, recurrencePattern := none,
    recurrenceEnd := none, color := some "#222222" }

/-- The embedding of `String.prototype.padStart(2, '0')`: a string of
length at least 2 is unchanged, a shorter one is left-padded with `'0'`
to length 2. -/
def padStart2 (s : String) : String :=
  if s.length < 2 then String.mk (List.replicate (2 - s.length) '0') ++ s else s

/-- The manual submission-date formatting of `handleSchedule` (part_000
lines 311-318) and `handleAddEvent` (part_000 lines 1873-1880): the
numeric components are read directly off the selected date
(`getFullYear`, `getMonth() + 1`, `getDate`) and assembled as
`year + "-" + pad(month) + "-" + pad(day)`, month and day through
`padStart(2, '0')`; JS number-to-string on naturals is decimal
`Nat.repr`. -/
def formatDateManual (y m d : Nat) : String :=
  Nat.repr y ++ "-" ++ padStart2 (Nat.repr m) ++ "-" ++ padStart2 (Nat.repr d)

/-! ## Theorems -/

/-- Helper: pointwise sublists lift through `flatMap`. -/
theorem flatMap_sublist_flatMap {α β : Type} {l : List α} {f g : α → List β}
    (h : ∀ a ∈ l, (f a).Sublist (g a)) : (l.flatMap f).Sublist (l.flatMap g) := by
  induction l with
  | nil => simp
  | cons a l ih =>
    simp only [List.flatMap_cons]
    exact (h a (List.mem_cons_self a l)).append (ih fun x hx => h x (List.mem_cons_of_mem a hx))

/-- Helper: `flatMap` over a congruent function. -/
theorem flatMap_congr_mem {α β : Type} {l : List α} {f g : α → List β}
    (h : ∀ a ∈ l, f a = g a) : l.flatMap f = l.flatMap g := by
  induction l with
  | nil => rfl
  | cons a l ih =>
    simp only [List.flatMap_cons]
    rw [h a (List.mem_cons_self a l), ih fun x hx => h x (List.mem_cons_of_mem a hx)]

/-- Both generators start no earlier than hour 9. -/
theorem slotStartHour_ge_nine_or_now (sameDay : Bool) (nowHour nowMinute : Nat) :
    9 ≤ slotStartHour sameDay nowHour nowMinute ∧
      (sameDay = true → nowHour ≤ slotStartHour sameDay nowHour nowMinute) := by
  cases sameDay with
  | false => simp [slotStartHour]
  | true =>
    simp only [slotStartHour, if_true]
    constructor
    · split
      · split
        · omega
        · omega
      · omega
    · intro _
      split
      · split
        · omega
        · omega
      · omega

/-- The scheduler generator always produces a sublist of the 16 full-day
slots. -/
theorem generateTimeSlotsScheduler_sublist (d : CalendarDate) (now : Instant) :
    (generateTimeSlotsScheduler d now).Sublist fullDaySlots := by
  unfold generateTimeSlotsScheduler
  set sameDay := decide (d = now.date) with hsd
  set s := slotStartHour sameDay now.hour now.minute with hs
  have h9 : 9 ≤ s := (slotStartHour_ge_nine_or_now sameDay now.hour now.minute).1
  have hfull : fullDaySlots =
      (List.range' 9 8).flatMap (fun hour => [Slot.mk hour 0, Slot.mk hour 30]) := by
    decide
  rw [hfull]
  have step1 : ((List.range' s (17 - s)).flatMap fun hour =>
      ([0, 30].filter fun minute =>
        !(sameDay && ((decide (hour = s) && decide (minute < now.minute)
            && decide (30 < now.minute)) || decide (hour < now.hour)))).map
        fun minute => Slot.mk hour minute).Sublist
      ((List.range' s (17 - s)).flatMap fun hour => [Slot.mk hour 0, Slot.mk hour 30]) := by
    apply flatMap_sublist_flatMap
    intro hour _
    have : ([Slot.mk hour 0, Slot.mk hour 30] : List Slot) =
        ([0, 30] : List Nat).map fun minute => Slot.mk hour minute := by rfl
    rw [this]
    exact List.Sublist.map _ (List.filter_sublist _)
  refine step1.trans ?_
  by_cases hle : s ≤ 17
  · have hsplit : List.range' 9 8 =
        List.range' 9 (s - 9) ++ List.range' s (17 - s) := by
      have h := List.range'_append 9 (s - 9) (17 - s) 1
      simp only [Nat.one_mul] at h
      have h1 : 9 + (s - 9) = s := by omega
      have h2 : 17 - s + (s - 9) = 8 := by omega
      rw [h1, h2] at h
      exact h.symm
    rw [hsplit, List.flatMap_append]
    exact List.sublist_append_right _ _
  · have : 17 - s = 0 := by omega
    rw [this]
    simp

/-- The modal generator equals the scheduler generator: the extra
`hour < now.getHours()` disjunct in the scheduler's skip condition is
never true, because every looped hour is at least `startHour`, which is
at least `now.getHours()` whenever the condition could fire. -/
theorem generateTimeSlotsModal_eq_scheduler (d : CalendarDate) (now : Instant) :
    generateTimeSlotsModal d now = generateTimeSlotsScheduler d now := by
  unfold generateTimeSlotsModal generateTimeSlotsScheduler
  set sameDay := decide (d = now.date) with hsd
  set s := slotStartHour sameDay now.hour now.minute with hs
  apply flatMap_congr_mem
  intro hour hmem
  have hge : s ≤ hour := (List.mem_range'_1.mp hmem).1
  rcases Bool.eq_false_or_eq_true sameDay with htrue | hfalse
  · have hnow : now.hour ≤ s :=
      (slotStartHour_ge_nine_or_now sameDay now.hour now.minute).2 htrue
    have hlt : decide (hour < now.hour) = false := by
      simp only [decide_eq_false_iff_not]
      omega
    simp [htrue, hlt]
  · simp [hfalse]

/-- Helper: if the selected date is not today, both skip conditions are
off and the generator yields the full 16-slot day. -/
theorem generateTimeSlotsScheduler_of_ne (d : CalendarDate) (now : Instant)
    (h : d ≠ now.date) : generateTimeSlotsScheduler d now = fullDaySlots := by
  have hfalse : decide (d = now.date) = false := by
    simp only [decide_eq_false_iff_not]
    exact h
  simp only [generateTimeSlotsScheduler, hfalse, Bool.false_and,
    Bool.not_false, List.filter_true]
  have h9 : slotStartHour false now.hour now.minute = 9 := rfl
  rw [h9]
  decide

/-- Helper: strict calendar order is irreflexive, so a date on either
side of today is not today. -/
theorem CalendarDate.before_ne {a b : CalendarDate} (h : a.before b) : a ≠ b := by
  intro he
  rw [he] at h
  unfold CalendarDate.before at h
  omega

/-- C5: for every date strictly after now's date, both copies of the slot
generator return exactly the 16 slots 09:00, 09:30, ..., 16:30 of the
working window, in ascending order (`fullDaySlots` lists them in that
order). -/
theorem claim_C5_future_full_day (d : CalendarDate) (now : Instant)
    (h : now.date.before d) :
    generateTimeSlotsScheduler d now = fullDaySlots ∧
      generateTimeSlotsModal d now = fullDaySlots ∧ fullDaySlots.length = 16 := by
  have hne : d ≠ now.date := fun he => CalendarDate.before_ne h he.symm
  refine ⟨generateTimeSlotsScheduler_of_ne d now hne, ?_, by decide⟩
  rw [generateTimeSlotsModal_eq_scheduler]
  exact generateTimeSlotsScheduler_of_ne d now hne

/-- C5 witness: a concrete future date gets the full 16 slots. -/
theorem claim_C5_future_full_day_witness :
    generateTimeSlotsScheduler ⟨2025, 1, 1⟩ ⟨⟨2024, 6, 1⟩, 9, 15⟩ = fullDaySlots ∧
      generateTimeSlotsModal ⟨2025, 1, 1⟩ ⟨⟨2024, 6, 1⟩, 9, 15⟩ = fullDaySlots ∧
      fullDaySlots.length = 16 :=
  claim_C5_future_full_day ⟨2025, 1, 1⟩ ⟨⟨2024, 6, 1⟩, 9, 15⟩ (by decide)

/-- C3 counterexample: for a date strictly before now's date the
generators do NOT return the empty sequence (they return all 16 slots),
refuting the claim that past dates yield an empty slot list. -/
theorem claim_C3_counterexample :
    CalendarDate.before ⟨2024, 1, 1⟩ ⟨2024, 6, 1⟩ ∧
      generateTimeSlotsScheduler ⟨2024, 1, 1⟩ ⟨⟨2024, 6, 1⟩, 12, 0⟩ ≠ [] ∧
      generateTimeSlotsModal ⟨2024, 1, 1⟩ ⟨⟨2024, 6, 1⟩, 12, 0⟩ ≠ [] := by
  refine ⟨by decide, ?_, ?_⟩ <;> decide

/-- C3 amended: for every date strictly before now's date, both copies of
the slot generator return the full 16-slot day 09:00..16:30 — exactly as
for a future date — because the only pruning (`isToday`) never fires;
past-date scheduling is instead rejected by the form validators. -/
theorem claim_C3_past_full_day (d : CalendarDate) (now : Instant)
    (h : d.before now.date) :
    generateTimeSlotsScheduler d now = fullDaySlots ∧
      generateTimeSlotsModal d now = fullDaySlots := by
  have hne : d ≠ now.date := CalendarDate.before_ne h
  refine ⟨generateTimeSlotsScheduler_of_ne d now hne, ?_⟩
  rw [generateTimeSlotsModal_eq_scheduler]
  exact generateTimeSlotsScheduler_of_ne d now hne

/-- C3 amended witness: a concrete past date gets the full 16 slots. -/
theorem claim_C3_past_full_day_witness :
    generateTimeSlotsScheduler ⟨2024, 1, 1⟩ ⟨⟨2024, 6, 1⟩, 12, 0⟩ = fullDaySlots ∧
      generateTimeSlotsModal ⟨2024, 1, 1⟩ ⟨⟨2024, 6, 1⟩, 12, 0⟩ = fullDaySlots :=
  claim_C3_past_full_day ⟨2024, 1, 1⟩ ⟨⟨2024, 6, 1⟩, 12, 0⟩ (by decide)

/-- C2: evaluation at the failing inputs.  With now = 09:15 on the
selected day, the first generated slot is 09:00 — a slot strictly before
the current time, not the claimed rounded-up 09:30 (the skip condition
`minute < now.getMinutes() && now.getMinutes() > 30` is false when the
current minute is 15, contradicting the code's own comments "Round up to
nearest half hour" and "Skip past times for today").  With now = 09:45
the first slot is 11:00, not the claimed 10:00 (the skip condition wipes
out both 10:00 and 10:30, which are not past times). -/
theorem claim_C2_failing_inputs :
    (generateTimeSlotsScheduler ⟨2024, 6, 1⟩ ⟨⟨2024, 6, 1⟩, 9, 15⟩).head? = some ⟨9, 0⟩ ∧
      (generateTimeSlotsModal ⟨2024, 6, 1⟩ ⟨⟨2024, 6, 1⟩, 9, 15⟩).head? = some ⟨9, 0⟩ ∧
      Slot.before ⟨9, 0⟩ ⟨9, 15⟩ ∧
      (generateTimeSlotsScheduler ⟨2024, 6, 1⟩ ⟨⟨2024, 6, 1⟩, 9, 45⟩).head? = some ⟨11, 0⟩ ∧
      (generateTimeSlotsModal ⟨2024, 6, 1⟩ ⟨⟨2024, 6, 1⟩, 9, 45⟩).head? = some ⟨11, 0⟩ := by
  refine ⟨?_, ?_, ?_, ?_, ?_⟩ <;> decide

/-- C9: every slot either generator returns has minute 0 or 30 and hour
between 9 and 16, and each returned sequence is strictly increasing in
time. -/
theorem claim_C9_slot_invariants (d : CalendarDate) (now : Instant) :
    (∀ s, (s ∈ generateTimeSlotsScheduler d now ∨ s ∈ generateTimeSlotsModal d now) →
        (s.minute = 0 ∨ s.minute = 30) ∧ 9 ≤ s.hour ∧ s.hour ≤ 16) ∧
      (generateTimeSlotsScheduler d now).Pairwise Slot.before ∧
      (generateTimeSlotsModal d now).Pairwise Slot.before := by
  have hsub := generateTimeSlotsScheduler_sublist d now
  have hfull : ∀ s ∈ fullDaySlots,
      (s.minute = 0 ∨ s.minute = 30) ∧ 9 ≤ s.hour ∧ s.hour ≤ 16 := by decide
  have hpw : fullDaySlots.Pairwise Slot.before := by decide
  refine ⟨?_, List.Pairwise.sublist hsub hpw, ?_⟩
  · intro s hs
    rw [generateTimeSlotsModal_eq_scheduler, or_self] at hs
    exact hfull s (hsub.subset hs)
  · rw [generateTimeSlotsModal_eq_scheduler]
    exact List.Pairwise.sublist hsub hpw

/-- C9 witness: the invariants instantiated on a concrete same-day call. -/
theorem claim_C9_slot_invariants_witness :
    ((⟨10, 0⟩ : Slot).minute = 0 ∨ (⟨10, 0⟩ : Slot).minute = 30) ∧
      9 ≤ (⟨10, 0⟩ : Slot).hour ∧ (⟨10, 0⟩ : Slot).hour ≤ 16 :=
  (claim_C9_slot_invariants ⟨2024, 6, 1⟩ ⟨⟨2024, 6, 1⟩, 9, 15⟩).1 ⟨10, 0⟩
    (Or.inl (by decide))

/-- Helper: stable insertion permutes consing. -/
theorem insertStable_perm {α : Type} (le : α → α → Bool) (x : α) (l : List α) :
    (insertStable le x l).Perm (x :: l) := by
  induction l with
  | nil => exact List.Perm.refl _
  | cons y ys ih =>
    unfold insertStable
    split
    · exact List.Perm.refl _
    · exact (ih.cons y).trans (List.Perm.swap x y ys)

/-- Helper: the stable sort permutes its input. -/
theorem stableSort_perm {α : Type} (le : α → α → Bool) (l : List α) :
    (stableSort le l).Perm l := by
  induction l with
  | nil => exact List.Perm.refl _
  | cons x xs ih => exact (insertStable_perm le x (stableSort le xs)).trans (ih.cons x)

/-- Helper: membership in a stable insertion. -/
theorem mem_insertStable {α : Type} {le : α → α → Bool} {x z : α} {l : List α} :
    z ∈ insertStable le x l ↔ z = x ∨ z ∈ l := by
  rw [(insertStable_perm le x l).mem_iff, List.mem_cons]

/-- Helper: stable insertion into a sorted list is sorted, given a
transitive and total `le`. -/
theorem pairwise_insertStable {α : Type} {le : α → α → Bool}
    (htrans : ∀ a b c, le a b = true → le b c = true → le a c = true)
    (htotal : ∀ a b, le a b = true ∨ le b a = true)
    {x : α} {l : List α} (h : l.Pairwise fun a b => le a b = true) :
    (insertStable le x l).Pairwise fun a b => le a b = true := by
  induction l with
  | nil => simp [insertStable]
  | cons y ys ih =>
    rw [List.pairwise_cons] at h
    obtain ⟨hy, hys⟩ := h
    unfold insertStable
    split
    · rename_i hxy
      rw [List.pairwise_cons]
      refine ⟨?_, List.pairwise_cons.mpr ⟨hy, hys⟩⟩
      intro z hz
      rcases List.mem_cons.mp hz with rfl | hz
      · exact hxy
      · exact htrans x y z hxy (hy z hz)
    · rename_i hxy
      have hyx : le y x = true := by
        rcases htotal x y with h1 | h1
        · exact absurd h1 hxy
        · exact h1
      rw [List.pairwise_cons]
      refine ⟨?_, ih hys⟩
      intro z hz
      rcases mem_insertStable.mp hz with rfl | hz
      · exact hyx
      · exact hy z hz

/-- Helper: the stable sort output is sorted, given a transitive and
total `le`. -/
theorem pairwise_stableSort {α : Type} {le : α → α → Bool}
    (htrans : ∀ a b c, le a b = true → le b c = true → le a c = true)
    (htotal : ∀ a b, le a b = true ∨ le b a = true) (l : List α) :
    (stableSort le l).Pairwise fun a b => le a b = true := by
  induction l with
  | nil => simp [stableSort]
  | cons x xs ih => exact pairwise_insertStable htrans htotal ih

/-- Helper: filtering with a class predicate `p` through a stable
insertion of a `p`-element puts that element first. -/
theorem filter_insertStable_pos {α : Type} {p : α → Bool} {le : α → α → Bool} {x : α}
    (hpx : p x = true) (hcompat : ∀ y, p y = true → le x y = true) (l : List α) :
    (insertStable le x l).filter p = x :: l.filter p := by
  induction l with
  | nil => simp [insertStable, hpx]
  | cons y ys ih =>
    unfold insertStable
    split
    · rw [List.filter_cons_of_pos hpx]
    · rename_i hxy
      have hpy : p y = false := by
        cases hq : p y with
        | false => rfl
        | true => exact absurd (hcompat y hq) hxy
      rw [List.filter_cons_of_neg (by simp [hpy]), ih,
        List.filter_cons_of_neg (by simp [hpy])]

/-- Helper: filtering with a predicate that rejects `x` ignores the
stable insertion of `x`. -/
theorem filter_insertStable_neg {α : Type} {p : α → Bool} {le : α → α → Bool} {x : α}
    (hpx : p x = false) (l : List α) :
    (insertStable le x l).filter p = l.filter p := by
  induction l with
  | nil => simp [insertStable, hpx]
  | cons y ys ih =>
    unfold insertStable
    split
    · rw [List.filter_cons_of_neg (by simp [hpx])]
    · cases hq : p y with
      | false => rw [List.filter_cons_of_neg (by simp [hq]), ih,
          List.filter_cons_of_neg (by simp [hq])]
      | true => rw [List.filter_cons_of_pos hq, ih, List.filter_cons_of_pos hq]

/-- Helper (stability): restricted to any mutually-tied class, the stable
sort preserves the input order exactly. -/
theorem filter_stableSort_of_class {α : Type} {p : α → Bool} {le : α → α → Bool}
    (hcompat : ∀ x y, p x = true → p y = true → le x y = true) (l : List α) :
    (stableSort le l).filter p = l.filter p := by
  induction l with
  | nil => rfl
  | cons x xs ih =>
    show (insertStable le x (stableSort le xs)).filter p = _
    cases hpx : p x with
    | true =>
      rw [filter_insertStable_pos hpx (fun y hy => hcompat x y hpx hy), ih,
        List.filter_cons_of_pos hpx]
    | false =>
      rw [filter_insertStable_neg hpx, ih, List.filter_cons_of_neg (by simp [hpx])]

/-- Helper: the code-point order on character lists is transitive. -/
theorem charListLt_trans : ∀ {a b c : List Char}, charListLt a b = true →
    charListLt b c = true → charListLt a c = true := by
  intro a
  induction a with
  | nil =>
    intro b c hab hbc
    cases b with
    | nil => simp [charListLt] at hab
    | cons y ys =>
      cases c with
      | nil => simp [charListLt] at hbc
      | cons z zs => simp [charListLt]
  | cons x xs ih =>
    intro b c hab hbc
    cases b with
    | nil => simp [charListLt] at hab
    | cons y ys =>
      cases c with
      | nil => simp [charListLt] at hbc
      | cons z zs =>
        simp only [charListLt] at hab hbc ⊢
        split at hab
        · rename_i hxy
          split at hbc
          · rename_i hyz
            rw [if_pos (by omega)]
          · rename_i hyz
            split at hbc
            · simp at hbc
            · rename_i hzy
              rw [if_pos (by omega)]
        · rename_i hxy
          split at hab
          · simp at hab
          · rename_i hyx
            split at hbc
            · rename_i hyz
              rw [if_pos (by omega)]
            · rename_i hyz
              split at hbc
              · simp at hbc
              · rename_i hzy
                rw [if_neg (by omega), if_neg (by omega)]
                exact ih hab hbc

/-- Helper: the code-point order is asymmetric. -/
theorem charListLt_asymm : ∀ {a b : List Char}, charListLt a b = true →
    charListLt b a = false := by
  intro a
  induction a with
  | nil =>
    intro b hab
    cases b with
    | nil => simp [charListLt] at hab
    | cons y ys => simp [charListLt]
  | cons x xs ih =>
    intro b hab
    cases b with
    | nil => simp [charListLt] at hab
    | cons y ys =>
      simp only [charListLt] at hab ⊢
      split at hab
      · rename_i hxy
        rw [if_neg (by omega), if_pos (by omega)]
      · rename_i hxy
        split at hab
        · simp at hab
        · rename_i hyx
          rw [if_neg (by omega), if_neg (by omega)]
          exact ih hab

/-- Helper: two lists neither of which precedes the other are equal. -/
theorem charListLt_eq_of_not : ∀ {a b : List Char}, charListLt a b = false →
    charListLt b a = false → a = b := by
  intro a
  induction a with
  | nil =>
    intro b hab _
    cases b with
    | nil => rfl
    | cons y ys => simp [charListLt] at hab
  | cons x xs ih =>
    intro b hab hba
    cases b with
    | nil => simp [charListLt] at hba
    | cons y ys =>
      simp only [charListLt] at hab hba
      by_cases hxy : x.toNat < y.toNat
      · rw [if_pos hxy] at hab
        cases hab
      · rw [if_neg hxy] at hab
        by_cases hyx : y.toNat < x.toNat
        · rw [if_pos hyx] at hba
          cases hba
        · rw [if_neg hyx] at hab
          rw [if_neg hyx, if_neg hxy] at hba
          have hn : x.toNat = y.toNat := by omega
          have hchar : x = y := Char.eq_of_val_eq (UInt32.toNat.inj hn)
          rw [hchar, ih hab hba]

/-- Helper: non-precedence is transitive (derived). -/
theorem charListLt_neg_trans {a b c : List Char} (hab : charListLt a b = false)
    (hbc : charListLt b c = false) : charListLt a c = false := by
  cases hac : charListLt a c with
  | false => rfl
  | true =>
    cases hba : charListLt b a with
    | true =>
      have h := charListLt_trans hba hac
      rw [h] at hbc
      cases hbc
    | false =>
      have h : a = b := charListLt_eq_of_not hab hba
      rw [h, hbc] at hac
      cases hac

/-- Helper: `strLt` versions of the order facts. -/
theorem strLt_trans {a b c : String} (hab : strLt a b = true)
    (hbc : strLt b c = true) : strLt a c = true :=
  charListLt_trans hab hbc

/-- Helper: `strLt` is asymmetric. -/
theorem strLt_asymm {a b : String} (hab : strLt a b = true) : strLt b a = false :=
  charListLt_asymm hab

/-- Helper: `strLt`-incomparable strings are equal. -/
theorem strLt_eq_of_not {a b : String} (hab : strLt a b = false)
    (hba : strLt b a = false) : a = b := by
  cases a with
  | mk la =>
    cases b with
    | mk lb =>
      have : la = lb := charListLt_eq_of_not hab hba
      rw [this]

/-- Helper: `strLt` non-precedence is transitive. -/
theorem strLt_neg_trans {a b c : String} (hab : strLt a b = false)
    (hbc : strLt b c = false) : strLt a c = false :=
  charListLt_neg_trans hab hbc

/-- Helper: what the comparator's "may come first" relation means. -/
theorem agendaLe_iff (a b : AgendaItem) :
    agendaLe a b = true ↔ (a.isAllDay = true ∨ (b.isAllDay = false ∧
      strLt (b.time.getD "") (a.time.getD "") = false)) := by
  simp only [agendaLe, agendaCmp, decide_eq_true_eq]
  cases ha : a.isAllDay with
  | true => simp
  | false =>
    cases hb : b.isAllDay with
    | true => simp
    | false =>
      simp only [Bool.false_eq_true, if_false, true_and, false_or]
      cases hab : strLt (a.time.getD "") (b.time.getD "") with
      | true =>
        rw [strLt_asymm hab]
        simp
      | false =>
        cases hba : strLt (b.time.getD "") (a.time.getD "") with
        | true => simp
        | false => simp

/-- Helper: the comparator relation is transitive. -/
theorem agendaLe_trans (a b c : AgendaItem) (hab : agendaLe a b = true)
    (hbc : agendaLe b c = true) : agendaLe a c = true := by
  rw [agendaLe_iff] at hab hbc ⊢
  rcases hab with ha | ⟨hb, hba⟩
  · exact Or.inl ha
  · rcases hbc with hb' | ⟨hc, hcb⟩
    · rw [hb'] at hb
      cases hb
    · exact Or.inr ⟨hc, strLt_neg_trans hcb hba⟩

/-- Helper: the comparator relation is total. -/
theorem agendaLe_total (a b : AgendaItem) :
    agendaLe a b = true ∨ agendaLe b a = true := by
  by_cases hle : agendaLe a b = true
  · exact Or.inl hle
  · right
    rw [agendaLe_iff]
    rw [agendaLe_iff] at hle
    push_neg at hle
    obtain ⟨ha, hrest⟩ := hle
    cases hb : b.isAllDay with
    | true => exact Or.inl rfl
    | false =>
      refine Or.inr ⟨?_, ?_⟩
      · simpa using ha
      · have hba : strLt (b.time.getD "") (a.time.getD "") = true := by
          have h2 := hrest hb
          cases hq : strLt (b.time.getD "") (a.time.getD "") with
          | false => exact absurd hq h2
          | true => rfl
        exact strLt_asymm hba

/-- C1 counterexample: the agenda ignores recurrence and event status.
A weekly event anchored 2024-01-01 (status upcoming) does not appear on
the matching later day 2024-01-15, and a cancelled event does appear on
its own date — both contradicting the claim. -/
theorem claim_C1_counterexample :
    exampleWeeklyEvent.isRecurring = true ∧
      exampleWeeklyEvent.recurrencePattern = some "weekly" ∧
      exampleWeeklyEvent.date = "2024-01-01" ∧
      exampleWeeklyEvent.status ≠ "cancelled" ∧
      agendaForDate [exampleWeeklyEvent] [] "2024-01-15" = [] ∧
      exampleCancelledEvent.status = "cancelled" ∧
      exampleCancelledEvent.date = "2024-03-03" ∧
      agendaForDate [exampleCancelledEvent] [] "2024-03-03" =
        [eventToItem exampleCancelledEvent] := by
  refine ⟨rfl, rfl, rfl, ?_, ?_, rfl, rfl, ?_⟩
  · decide
  · decide
  · decide

/-- C1 amended: the agenda for a date contains exactly the Events whose
stored date string equals the queried date — regardless of status (a
cancelled Event still appears) and regardless of any recurrence rule (a
recurring entity appears only on its anchor date) — plus the Appointments
whose stored date equals the queried date and whose status is not
"cancelled" (the listener pre-filter). -/
theorem claim_C1_agenda_content (events : List CalEvent)
    (appointments : List Appointment) (d : String) :
    (agendaForDate events appointments d).Perm
        ((events.filter fun e => e.date == d).map eventToItem ++
          ((activeAppointments appointments).filter fun a => a.date == d).map aptToItem) ∧
    ∀ x, x ∈ agendaForDate events appointments d ↔
      ((∃ e, e ∈ events ∧ e.date = d ∧ x = eventToItem e) ∨
        (∃ a, a ∈ appointments ∧ a.status ≠ "cancelled" ∧ a.date = d ∧
          x = aptToItem a)) := by
  constructor
  · exact stableSort_perm _ _
  · intro x
    show x ∈ stableSort agendaLe _ ↔ _
    rw [(stableSort_perm _ _).mem_iff]
    simp only [List.mem_append, List.mem_map, List.mem_filter, beq_iff_eq,
      activeAppointments, bne_iff_ne, ne_eq]
    constructor
    · rintro (⟨e, ⟨he, hd⟩, hx⟩ | ⟨a, ⟨⟨ha, hs⟩, hd⟩, hx⟩)
      · exact Or.inl ⟨e, he, hd, hx.symm⟩
      · exact Or.inr ⟨a, ha, hs, hd, hx.symm⟩
    · rintro (⟨e, he, hd, hx⟩ | ⟨a, ha, hs, hd, hx⟩)
      · exact Or.inl ⟨e, ⟨he, hd⟩, hx.symm⟩
      · exact Or.inr ⟨a, ⟨⟨ha, hs⟩, hd⟩, hx.symm⟩

/-- C4: the agenda is ordered all-day entries first, then by ascending
time string; within every comparator-tie class the input stream order is
preserved exactly (all tied Events, in stream order, precede all tied
Appointments, in stream order); and on the spec's concrete example the
all-day Event precedes the 09:00 Appointment. -/
theorem claim_C4_agenda_order (events : List CalEvent)
    (appointments : List Appointment) (d : String) :
    ((agendaForDate events appointments d).Pairwise fun a b =>
        b.isAllDay = true → a.isAllDay = true) ∧
    ((agendaForDate events appointments d).Pairwise fun a b =>
        a.isAllDay = false → b.isAllDay = false →
          strLt (b.time.getD "") (a.time.getD "") = false) ∧
    (∀ x, (agendaForDate events appointments d).filter (fun z => tiedAgenda z x) =
        ((events.filter fun e => e.date == d).map eventToItem).filter
            (fun z => tiedAgenda z x) ++
          (((activeAppointments appointments).filter fun a => a.date == d).map
              aptToItem).filter (fun z => tiedAgenda z x)) ∧
    agendaForDate [exampleAllDayEvent] [exampleMorningAppointment] "2024-06-01" =
      [eventToItem exampleAllDayEvent, aptToItem exampleMorningAppointment] := by
  have hsorted := pairwise_stableSort agendaLe_trans agendaLe_total
      ((events.filter fun e => e.date == d).map eventToItem ++
        ((activeAppointments appointments).filter fun a => a.date == d).map aptToItem)
  refine ⟨?_, ?_, ?_, by decide⟩
  · refine List.Pairwise.imp ?_ hsorted
    intro a b hle hb
    rcases (agendaLe_iff a b).mp hle with ha | ⟨hbf, _⟩
    · exact ha
    · rw [hb] at hbf
      cases hbf
  · refine List.Pairwise.imp ?_ hsorted
    intro a b hle ha hb
    rcases (agendaLe_iff a b).mp hle with ha' | ⟨_, hba⟩
    · rw [ha] at ha'
      cases ha'
    · exact hba
  · intro x
    have hcompat : ∀ z w, (fun z => tiedAgenda z x) z = true →
        (fun z => tiedAgenda z x) w = true → agendaLe z w = true := by
      intro z w hz hw
      simp only [tiedAgenda, Bool.and_eq_true] at hz hw
      exact agendaLe_trans z x w hz.1 hw.2
    have h := @filter_stableSort_of_class AgendaItem (fun z => tiedAgenda z x)
      agendaLe hcompat
      ((events.filter fun e => e.date == d).map eventToItem ++
        ((activeAppointments appointments).filter fun a => a.date == d).map aptToItem)
    rw [List.filter_append] at h
    exact h

/-- C6 counterexample: a non-all-day Event dated today with time 09:00
while the current instant is 14:00 passes `validateForm` with no error at
all — the event validator never compares the combined (date, time)
against now, so the claimed time error is not reported. -/
theorem claim_C6_counterexample :
    validateForm examplePastTimeEventForm ⟨⟨2024, 6, 1⟩, 14, 0⟩ =
      { title := none, location := none, date := none, time := none,
        recurrence := none } ∧
      instantBefore ⟨2024, 6, 1⟩ ⟨9, 0⟩ ⟨⟨2024, 6, 1⟩, 14, 0⟩ ∧
      examplePastTimeEventForm.isAllDay = false ∧
      examplePastTimeEventForm.date = some ⟨2024, 6, 1⟩ := by
  refine ⟨?_, ?_, rfl, rfl⟩
  · decide
  · decide

/-- C6 amended: for Appointments (with a time present and a slot
selected) the validator reports a time error exactly when the date is
today and the combined (date, time) is strictly before the current
instant; for Events, once a time is present and the event is not all-day,
`validateForm` never reports a time error — a today-dated Event whose
time is earlier than now is accepted. -/
theorem claim_C6_time_validation (f : SchedulerForm) (g : EventForm)
    (now : Instant) (d : CalendarDate) (t : TimeOfDay) (tt : TimeOfDay)
    (hfd : f.date = some d) (hft : f.time = some t)
    (hslot : f.selectedTimeSlot = true) (hgall : g.isAllDay = false)
    (hgt : g.time = some tt) :
    ((validateInputs f now).time ≠ none ↔
        (d = now.date ∧ instantBefore d t now)) ∧
      (validateForm g now).time = none := by
  constructor
  · simp only [validateInputs, hfd, hft, hslot, Bool.not_true, Bool.false_and]
    rw [if_neg (by simp)]
    split
    · rename_i h
      exact iff_of_true (by simp) h
    · rename_i h
      exact iff_of_false (by simp) h
  · simp only [validateForm, hgall, hgt]
    rw [if_neg (by simp)]

/-- C6 witness: the amended statement at the concrete past-time forms. -/
theorem claim_C6_time_validation_witness :
    ((validateInputs examplePastTimeSchedulerForm ⟨⟨2024, 6, 1⟩, 14, 0⟩).time ≠ none ↔
        ((⟨2024, 6, 1⟩ : CalendarDate) = (⟨⟨2024, 6, 1⟩, 14, 0⟩ : Instant).date ∧
          instantBefore ⟨2024, 6, 1⟩ ⟨9, 0⟩ ⟨⟨2024, 6, 1⟩, 14, 0⟩)) ∧
      (validateForm examplePastTimeEventForm ⟨⟨2024, 6, 1⟩, 14, 0⟩).time = none :=
  claim_C6_time_validation examplePastTimeSchedulerForm examplePastTimeEventForm
    ⟨⟨2024, 6, 1⟩, 14, 0⟩ ⟨2024, 6, 1⟩ ⟨9, 0⟩ ⟨9, 0⟩ rfl rfl rfl rfl rfl

/-- Helper: lookup through an appended map. -/
theorem lookupMark_append (m m2 : List (String × MarkInfo)) (d : String) :
    lookupMark (m ++ m2) d =
      match lookupMark m d with
      | some v => some v
      | none => lookupMark m2 d := by
  induction m with
  | nil => simp [lookupMark]
  | cons kv rest ih =>
    obtain ⟨k, v⟩ := kv
    by_cases hk : k = d
    · simp [lookupMark, hk]
    · simp only [List.cons_append, lookupMark, if_neg hk]
      exact ih

/-- Helper: how `addDot` changes the dots of each date. -/
theorem dotsFor_addDot (m : List (String × MarkInfo)) (k : String) (dot : Dot)
    (d : String) :
    dotsFor (addDot m k dot) d =
      if d = k then dotsFor m d ++ [dot] else dotsFor m d := by
  induction m with
  | nil =>
    by_cases hd : d = k
    · simp [addDot, dotsFor, lookupMark, hd]
    · have hkd : ¬k = d := fun h => hd h.symm
      simp [addDot, dotsFor, lookupMark, hd, hkd]
  | cons kv rest ih =>
    obtain ⟨k', v⟩ := kv
    by_cases hk : k' = k
    · subst hk
      by_cases hd : d = k'
      · subst hd
        simp [addDot, dotsFor, lookupMark]
      · have hkd : ¬k' = d := fun h => hd h.symm
        simp [addDot, dotsFor, lookupMark, hkd, hd]
    · simp only [addDot, if_neg hk]
      by_cases hd : k' = d
      · have hdk : ¬d = k := fun h => hk (hd.trans h)
        simp [dotsFor, lookupMark, hd, hdk]
      · have hstep : ∀ rest2 : List (String × MarkInfo),
            dotsFor ((k', v) :: rest2) d = dotsFor rest2 d := by
          intro rest2
          simp [dotsFor, lookupMark, hd]
        rw [hstep, hstep]
        exact ih

/-- Helper: dots of a cons whose head key misses. -/
theorem dotsFor_cons_ne {k d : String} (w : MarkInfo)
    (rest : List (String × MarkInfo)) (hk : ¬k = d) :
    dotsFor ((k, w) :: rest) d = dotsFor rest d := by
  simp [dotsFor, lookupMark, hk]

/-- Helper: dots of a cons whose head key hits. -/
theorem dotsFor_cons_eq {k d : String} (w : MarkInfo)
    (rest : List (String × MarkInfo)) (hk : k = d) :
    dotsFor ((k, w) :: rest) d = w.dots := by
  simp [dotsFor, lookupMark, hk]

/-- Helper: the flag update keeps every entry's dots. -/
theorem dotsFor_setSelectedFlag (m : List (String × MarkInfo)) (sel d : String) :
    dotsFor (setSelectedFlag m sel) d = dotsFor m d := by
  induction m with
  | nil => rfl
  | cons kv rest ih =>
    obtain ⟨k, w⟩ := kv
    unfold setSelectedFlag
    by_cases hks : k = sel
    · rw [if_pos hks]
      by_cases hk : k = d
      · rw [dotsFor_cons_eq _ _ hk, dotsFor_cons_eq _ _ hk]
      · rw [dotsFor_cons_ne _ _ hk, dotsFor_cons_ne _ _ hk, ih]
    · rw [if_neg hks]
      by_cases hk : k = d
      · rw [dotsFor_cons_eq _ _ hk, dotsFor_cons_eq _ _ hk]
      · rw [dotsFor_cons_ne _ _ hk, dotsFor_cons_ne _ _ hk, ih]

/-- Helper: the flag update sets the selected entry's flag. -/
theorem lookupMark_setSelectedFlag (m : List (String × MarkInfo)) (sel : String) :
    lookupMark (setSelectedFlag m sel) sel =
      (lookupMark m sel).map fun v => { v with selected := true } := by
  induction m with
  | nil => rfl
  | cons kv rest ih =>
    obtain ⟨k, w⟩ := kv
    unfold setSelectedFlag
    by_cases hks : k = sel
    · rw [if_pos hks]
      simp [lookupMark, hks]
    · rw [if_neg hks]
      simp [lookupMark, hks, ih]

/-- Helper: the selected-date step never changes any date's dots. -/
theorem dotsFor_markSelected (m : List (String × MarkInfo)) (sel d : String) :
    dotsFor (markSelected m sel) d = dotsFor m d := by
  unfold markSelected
  cases h : lookupMark m sel with
  | some v => exact dotsFor_setSelectedFlag m sel d
  | none =>
    unfold dotsFor
    rw [lookupMark_append]
    cases hmd : lookupMark m d with
    | some v => rfl
    | none =>
      by_cases hsd : sel = d
      · simp [lookupMark, hsd]
      · simp [lookupMark, hsd]

/-- Helper: after the selected-date step the selected key maps to its
accumulated dots with the selected flag on. -/
theorem lookupMark_markSelected (m : List (String × MarkInfo)) (sel : String) :
    lookupMark (markSelected m sel) sel =
      some { dots := dotsFor m sel, selected := true } := by
  unfold markSelected
  cases h : lookupMark m sel with
  | some v =>
    rw [lookupMark_setSelectedFlag, h]
    simp [dotsFor, h]
  | none =>
    rw [lookupMark_append, h]
    simp [lookupMark, dotsFor, h]

/-- Helper: the event loop appends, to each date, one dot per
non-cancelled event whose formatted date matches, in stream order. -/
theorem dotsFor_eventFold (events : List CalEvent)
    (m : List (String × MarkInfo)) (d : String) :
    dotsFor (events.foldl (fun m e =>
      if e.status != "cancelled" then
        addDot m (formatDateString e.date)
          { key := e.id, color := eventMarkerColor e }
      else m) m) d =
    dotsFor m d ++ (events.filter fun e =>
      e.status != "cancelled" && formatDateString e.date == d).map
        (fun e => { key := e.id, color := eventMarkerColor e }) := by
  induction events generalizing m with
  | nil => simp
  | cons e es ih =>
    rw [List.foldl_cons, ih]
    by_cases hs : (e.status != "cancelled") = true
    · rw [if_pos hs]
      by_cases hd : formatDateString e.date = d
      · rw [dotsFor_addDot, if_pos hd.symm,
          List.filter_cons_of_pos (by simp [hs, hd]), List.map_cons,
          List.append_assoc, List.singleton_append]
      · rw [dotsFor_addDot, if_neg (fun h => hd h.symm),
          List.filter_cons_of_neg (by simp [hs, hd])]
    · rw [if_neg hs, List.filter_cons_of_neg
        (by intro h; simp only [Bool.and_eq_true] at h; exact hs h.1)]

/-- Helper: the appointment loop appends one dot per appointment whose
formatted date matches, in stream order, always in the fixed appointment
color. -/
theorem dotsFor_aptFold (apts : List Appointment)
    (m : List (String × MarkInfo)) (d : String) :
    dotsFor (apts.foldl (fun m a =>
      addDot m (formatDateString a.date)
        { key := a.id, color := colorsLightAppointment }) m) d =
    dotsFor m d ++ (apts.filter fun a => formatDateString a.date == d).map
        (fun a => { key := a.id, color := colorsLightAppointment }) := by
  induction apts generalizing m with
  | nil => simp
  | cons a as ih =>
    rw [List.foldl_cons, ih]
    by_cases hd : formatDateString a.date = d
    · rw [dotsFor_addDot, if_pos hd.symm,
        List.filter_cons_of_pos (by simp [hd]), List.map_cons,
        List.append_assoc, List.singleton_append]
    · rw [dotsFor_addDot, if_neg (fun h => hd h.symm),
        List.filter_cons_of_neg (by simp [hd])]

/-- C7 counterexample: two non-cancelled appointments on the same date
with distinct stored colors (`#111111`, `#222222`) produce two markers of
one and the same color (the fixed appointment constant), so a marker does
not carry its entity's own color. -/
theorem claim_C7_counterexample :
    exampleColoredAppointmentA.color = some "#111111" ∧
      exampleColoredAppointmentB.color = some "#222222" ∧
      exampleColoredAppointmentA.status = "upcoming" ∧
      exampleColoredAppointmentB.status = "upcoming" ∧
      (∃ c, dotsFor (markedDatesPipeline []
          [exampleColoredAppointmentA, exampleColoredAppointmentB] "2024-06-01")
          "2024-06-05" =
        [{ key := "apA", color := c }, { key := "apB", color := c }]) := by
  refine ⟨rfl, rfl, rfl, rfl, ⟨colorsLightAppointment, by decide⟩⟩

/-- C7 amended: for every date, the marker map carries exactly one dot
per non-cancelled Event whose formatted date matches — in the event's own
computed color `event.color || EVENT_COLORS[category] || primary` — plus
one dot per non-cancelled Appointment whose formatted date matches, every
one in the fixed `Colors.light.appointment` color, ignoring the
appointment's stored color; dots follow stream order (events first). -/
theorem claim_C7_marker_colors (events : List CalEvent)
    (apts : List Appointment) (sel d : String) :
    dotsFor (markedDatesPipeline events apts sel) d =
      (events.filter fun e =>
          e.status != "cancelled" && formatDateString e.date == d).map
        (fun e => { key := e.id, color := eventMarkerColor e }) ++
      ((activeAppointments apts).filter fun a =>
          formatDateString a.date == d).map
        (fun a => { key := a.id, color := colorsLightAppointment }) := by
  simp only [markedDatesPipeline, updateMarkedDates]
  rw [dotsFor_markSelected, dotsFor_aptFold, dotsFor_eventFold]
  simp [dotsFor, lookupMark]

/-- C10: after every `updateMarkedDates` run the map has an entry for the
selected date with `selected: true`, and when no non-cancelled event and
no appointment falls on that date the entry is present with an empty dots
array. -/
theorem claim_C10_selected_entry (events : List CalEvent)
    (apts : List Appointment) (selected : String) :
    (∃ info, lookupMark (updateMarkedDates events apts selected) selected =
        some info ∧ info.selected = true) ∧
      ((events.filter fun e => e.status != "cancelled" &&
          formatDateString e.date == selected) = [] →
        (apts.filter fun a => formatDateString a.date == selected) = [] →
        lookupMark (updateMarkedDates events apts selected) selected =
          some { dots := [], selected := true }) := by
  simp only [updateMarkedDates]
  rw [lookupMark_markSelected, dotsFor_aptFold, dotsFor_eventFold]
  constructor
  · exact ⟨_, rfl, rfl⟩
  · intro hev hapt
    rw [hev, hapt]
    simp [dotsFor, lookupMark]

/-- C10 witness: with no entities at all, the selected date still gets a
selected entry with an empty dots array. -/
theorem claim_C10_selected_entry_witness :
    lookupMark (updateMarkedDates [] [] "2024-06-01") "2024-06-01" =
      some { dots := [], selected := true } :=
  (claim_C10_selected_entry [] [] "2024-06-01").2 rfl rfl

/-- Helper: every digit character produced by `Nat.digitChar` below 10 is
a digit. -/
theorem digitChar_isDigit : ∀ x, x < 10 → (Nat.digitChar x).isDigit = true := by
  decide

/-- Helper: `Nat.toDigitsCore` in base 10 only emits digit characters. -/
theorem toDigitsCore_digits (fuel : Nat) : ∀ (n : Nat) (acc : List Char),
    (∀ c ∈ acc, c.isDigit = true) →
    ∀ c ∈ Nat.toDigitsCore 10 fuel n acc, c.isDigit = true := by
  induction fuel with
  | zero =>
    intro n acc hacc c hc
    exact hacc c hc
  | succ fuel ih =>
    intro n acc hacc c hc
    have hd : (Nat.digitChar (n % 10)).isDigit = true :=
      digitChar_isDigit _ (Nat.mod_lt _ (by omega))
    simp only [Nat.toDigitsCore] at hc
    split at hc
    · rcases List.mem_cons.mp hc with rfl | hmem
      · exact hd
      · exact hacc c hmem
    · refine ih (n / 10) (Nat.digitChar (n % 10) :: acc) ?_ c hc
      intro c2 hc2
      rcases List.mem_cons.mp hc2 with rfl | hm
      · exact hd
      · exact hacc c2 hm

/-- Helper: one emission step of `Nat.toDigitsCore` adds one character. -/
theorem toDigitsCore_length_step (fuel n : Nat) (h : ¬n / 10 = 0) :
    (Nat.toDigitsCore 10 (fuel + 1) n []).length =
      (Nat.toDigitsCore 10 fuel (n / 10) []).length + 1 := by
  simp only [Nat.toDigitsCore]
  rw [if_neg h]
  exact Nat.toDigitsCore_lens_eq 10 fuel (n / 10) _ []

/-- Helper: the last emission step of `Nat.toDigitsCore` yields one
character. -/
theorem toDigitsCore_length_base (fuel n : Nat) (h : n / 10 = 0) :
    (Nat.toDigitsCore 10 (fuel + 1) n []).length = 1 := by
  simp only [Nat.toDigitsCore]
  rw [if_pos h]
  rfl

/-- Helper: a four-digit year renders as four characters. -/
theorem repr_data_length_four {y : Nat} (h1 : 1000 ≤ y) (h2 : y < 10000) :
    (Nat.repr y).data.length = 4 := by
  obtain ⟨k, rfl⟩ : ∃ k, y = k + 1000 := ⟨y - 1000, by omega⟩
  show (Nat.toDigitsCore 10 (k + 1000 + 1) (k + 1000) []).length = 4
  rw [toDigitsCore_length_step _ _ (by omega)]
  have e2 : k + 1000 = (k + 999) + 1 := by omega
  rw [e2, toDigitsCore_length_step _ _ (by omega)]
  have e3 : k + 999 = (k + 998) + 1 := by omega
  rw [e3, toDigitsCore_length_step _ _ (by omega)]
  have e4 : k + 998 = (k + 997) + 1 := by omega
  rw [e4, toDigitsCore_length_base _ _ (by omega)]

/-- Helper: decimal renderings consist of digit characters. -/
theorem repr_data_digits (y : Nat) : ∀ c ∈ (Nat.repr y).data, c.isDigit = true := by
  intro c hc
  exact toDigitsCore_digits (y + 1) y [] (by intro c2 hc2; cases hc2) c hc

/-- Helper: padding the rendering of a month or day number (below 32)
yields exactly two digit characters. -/
theorem padStart2_two_digits :
    ∀ n, n < 32 → ((padStart2 (Nat.repr n)).data.length = 2 ∧
      ∀ c ∈ (padStart2 (Nat.repr n)).data, c.isDigit = true) := by
  decide

/-- Helper: a four-element list. -/
theorem list_length_four {α : Type} {l : List α} (h : l.length = 4) :
    ∃ a b c d, l = [a, b, c, d] := by
  rcases l with _ | ⟨a, l⟩
  · simp at h
  rcases l with _ | ⟨b, l⟩
  · simp at h
  rcases l with _ | ⟨c, l⟩
  · simp at h
  rcases l with _ | ⟨d, l⟩
  · simp at h
  rcases l with _ | ⟨x, l⟩
  · exact ⟨a, b, c, d, rfl⟩
  · simp at h

/-- Helper: a two-element list. -/
theorem list_length_two {α : Type} {l : List α} (h : l.length = 2) :
    ∃ a b, l = [a, b] := by
  rcases l with _ | ⟨a, l⟩
  · simp at h
  rcases l with _ | ⟨b, l⟩
  · simp at h
  rcases l with _ | ⟨x, l⟩
  · exact ⟨a, b, rfl⟩
  · simp at h

/-- C8: for every valid selected date (four-digit year, month 1..12, day
1..31), the submission date string built by the manual formatter is
exactly of shape `YYYY-MM-DD`: four digits, dash, two digits, dash, two
digits, with month and day zero-padded to two digits via
`padStart(2, '0')` and every component taken directly from the numeric
date parts. -/
theorem claim_C8_date_format (y m d : Nat) (hy1 : 1000 ≤ y) (hy2 : y < 10000)
    (hm1 : 1 ≤ m) (hm2 : m ≤ 12) (hd1 : 1 ≤ d) (hd2 : d ≤ 31) :
    isYYYYMMDD (formatDateManual y m d) = true := by
  obtain ⟨y1, y2, y3, y4, hy⟩ := list_length_four (repr_data_length_four hy1 hy2)
  have hydig := repr_data_digits y
  rw [hy] at hydig
  obtain ⟨hm0, hmdig⟩ := padStart2_two_digits m (by omega)
  obtain ⟨m1, m2, hm⟩ := list_length_two hm0
  rw [hm] at hmdig
  obtain ⟨hd0, hddig⟩ := padStart2_two_digits d (by omega)
  obtain ⟨d1, d2, hd⟩ := list_length_two hd0
  rw [hd] at hddig
  have hdash : ("-" : String).data = ['-'] := rfl
  have hdata : (formatDateManual y m d).data =
      [y1, y2, y3, y4, '-', m1, m2, '-', d1, d2] := by
    simp only [formatDateManual, String.data_append, hy, hm, hd, hdash]
    rfl
  simp only [isYYYYMMDD, hdata]
  simp [hydig y1 (by simp), hydig y2 (by simp), hydig y3 (by simp),
    hydig y4 (by simp), hmdig m1 (by simp), hmdig m2 (by simp),
    hddig d1 (by simp), hddig d2 (by simp)]

/-- C8 witness: the formatter output for 2024-06-01 matches the shape
(and indeed equals the zero-padded string). -/
theorem claim_C8_date_format_witness :
    isYYYYMMDD (formatDateManual 2024 6 1) = true ∧
      formatDateManual 2024 6 1 = "2024-06-01" :=
  ⟨claim_C8_date_format 2024 6 1 (by decide) (by decide) (by decide)
      (by decide) (by decide) (by decide),
    by decide⟩
